import Mathlib

/-!
# Chat widget of the Dubai tourism assistant (`static/js/app.js`)

A shallow embedding of the client script: the activity line-group parser
`processActivities`, the recommendation renderer
`generateRecommendationsHTML`, the itinerary renderer `displayItinerary`
and the submit handler of the chat form.

JavaScript strings are modelled as lists of characters (`Str`).  Every
pattern the script searches for is ASCII, so reading a string by code
points instead of UTF-16 code units does not change any search result.

The page is modelled by the state the script reads and writes: the
children of the chat container, the input field, the itinerary section and
container.  The exchange with the endpoint is an argument of the handler,
and the requests and renderer calls are recorded in order.  Icon creation,
scrolling, `preventDefault` and the console are left out.
-/

namespace AppJs

/-- A JavaScript string, as the list of its characters. -/
abbrev Str := List Char

/-! ## String primitives used by the script -/

/-- The method `String.prototype.includes`: `pat` occurs somewhere in `s`. -/
def includes : Str → Str → Bool
  | [], pat => pat.isEmpty
  | c :: rest, pat => pat.isPrefixOf (c :: rest) || includes rest pat

/-- ECMAScript `LineTerminator` (LF, CR, LS, PS): the characters `.` does
not match. -/
def isLineTerminator (c : Char) : Bool :=
  c.toNat = 0x0a || c.toNat = 0x0d || c.toNat = 0x2028 || c.toNat = 0x2029

/-- ECMAScript `WhiteSpace`: TAB, VT, FF, ZWNBSP and the category `Zs`. -/
def isWhiteSpace (c : Char) : Bool :=
  c.toNat = 0x09 || c.toNat = 0x0b || c.toNat = 0x0c || c.toNat = 0xfeff ||
  c.toNat = 0x20 || c.toNat = 0xa0 || c.toNat = 0x1680 ||
  (0x2000 ≤ c.toNat && c.toNat ≤ 0x200a) ||
  c.toNat = 0x202f || c.toNat = 0x205f || c.toNat = 0x3000

/-- The characters `String.prototype.trim` strips. -/
def isTrimmable (c : Char) : Bool := isWhiteSpace c || isLineTerminator c

/-- The method `String.prototype.trim`. -/
def trim (s : Str) : Str :=
  ((s.dropWhile isTrimmable).reverse.dropWhile isTrimmable).reverse

/-- The tail `(.*?)(?=\n|$)` of the field patterns, tried at one position:
the lazy group takes characters one at a time until the look-ahead sees a
line feed or the end of the input; `.` refuses the other line terminators,
and then the attempt fails. -/
def lazyCapture : Str → Option Str
  | [] => some []
  | c :: rest =>
    if c = '\n' then some []
    else if isLineTerminator c then none
    else (lazyCapture rest).map (c :: ·)

/-- Capture group 1 of `s.match(/<lit>(.*?)(?=\n|$)/)`, `none` for a `null`
result: the leftmost position at which the whole pattern matches. -/
def matchField (lit : Str) : Str → Option Str
  | [] => if lit.isPrefixOf [] then lazyCapture ([] : Str) else none
  | c :: rest =>
    match (if lit.isPrefixOf (c :: rest) then lazyCapture ((c :: rest).drop lit.length)
           else none) with
    | some cap => some cap
    | none => matchField lit rest

/-! ## `processActivities` -/

/-- An activity record. -/
structure Activity where
  time : Str
  title : Str
  description : Str
  location : Str
  price : Str
  deriving DecidableEq, Repr

/-- The five assignments made while a record is open (lines 390-400). -/
def deriveFields (activityText : Str) : Activity :=
  let timeMatch := matchField "TIME: ".toList activityText
  let titleMatch := matchField "TITLE: ".toList activityText
  let descriptionMatch := matchField "DESCRIPTION: ".toList activityText
  let locationMatch := matchField "LOCATION: ".toList activityText
  let priceMatch := matchField "PRICE: ".toList activityText
  { time := match timeMatch with
      | some m => trim m
      | none => "Time TBD".toList
    title := match titleMatch with
      | some m => trim m
      | none => "Activity".toList
    description := match descriptionMatch with
      | some m => trim m
      | none => "No description available".toList
    location := match locationMatch with
      | some m => trim m
      | none => "Location TBD".toList
    price := match priceMatch with
      | some m => trim m
      | none => "Price on request".toList }

/-- The three variables of `processActivities`. -/
structure ParseState where
  processedActivities : List Activity
  currentActivity : Option Activity
  activityText : Str
  deriving DecidableEq, Repr

/-- The state before the first line. -/
def ParseState.init : ParseState :=
  { processedActivities := [], currentActivity := none, activityText := [] }

/-- The body of the `forEach` callback (lines 373-401). -/
def processLine (st : ParseState) (line : Str) : ParseState :=
  let st1 : ParseState :=
    if includes line "TIME:".toList then
      { processedActivities :=
          match st.currentActivity with
          | some a => st.processedActivities ++ [a]
          | none => st.processedActivities
        currentActivity := some
          { time := [], title := [], description := [], location := [], price := [] }
        activityText := line }
    else
      { st with activityText := st.activityText ++ '\n' :: line }
  match st1.currentActivity with
  | some _ => { st1 with currentActivity := some (deriveFields st1.activityText) }
  | none => st1

/-- The final push (lines 404-408). -/
def ParseState.finish (st : ParseState) : List Activity :=
  match st.currentActivity with
  | some a => st.processedActivities ++ [a]
  | none => st.processedActivities

/-- The function `processActivities(activities)` (lines 367-409). -/
def processActivities (activities : List Str) : List Activity :=
  (activities.foldl processLine ParseState.init).finish


/-! ## Reading the parser's result: line groups, buffers, fields -/

/-- Does a line open a record (the test of line 373)? -/
def opensRecord (line : Str) : Bool := includes line "TIME:".toList

/-- One pass from the right: the lines that still wait for their opening
line, and the groups closed so far. -/
def groupsAux : List Str → List Str × List (List Str)
  | [] => ([], [])
  | l :: rest =>
    if opensRecord l then ([], (l :: (groupsAux rest).1) :: (groupsAux rest).2)
    else (l :: (groupsAux rest).1, (groupsAux rest).2)

/-- The line groups of a day: each line containing `TIME:` together with the
lines up to, not including, the next such line.  Lines before the first
`TIME:` line belong to no group. -/
def lineGroups (lines : List Str) : List (List Str) := (groupsAux lines).2

/-- The lines of a group joined with a line feed. -/
def joinLines (g : List Str) : Str := List.intercalate ['\n'] g

/-- The final buffer of every group, in order. -/
def recordBuffers (lines : List Str) : List Str := (lineGroups lines).map joinLines

/-- The result of deriving the five fields once per group, from its final
buffer. -/
def deriveOncePerGroup (lines : List Str) : List Activity :=
  (recordBuffers lines).map deriveFields

/-- The five fields of a record. -/
inductive Field where
  | time | title | description | location | price
  deriving DecidableEq, Repr

/-- The tag of a field, as the spec names it. -/
def Field.tag : Field → Str
  | .time => "TIME:".toList
  | .title => "TITLE:".toList
  | .description => "DESCRIPTION:".toList
  | .location => "LOCATION:".toList
  | .price => "PRICE:".toList

/-- The literal text that opens the pattern of a field (lines 390-394): the
tag and one space. -/
def Field.pattern : Field → Str
  | .time => "TIME: ".toList
  | .title => "TITLE: ".toList
  | .description => "DESCRIPTION: ".toList
  | .location => "LOCATION: ".toList
  | .price => "PRICE: ".toList

/-- The placeholder of a field (lines 396-400). -/
def Field.placeholder : Field → Str
  | .time => "Time TBD".toList
  | .title => "Activity".toList
  | .description => "No description available".toList
  | .location => "Location TBD".toList
  | .price => "Price on request".toList

/-- The value of a field in a record. -/
def Field.get : Field → Activity → Str
  | .time, a => a.time
  | .title, a => a.title
  | .description, a => a.description
  | .location, a => a.location
  | .price, a => a.price

/-- The text `pre ++ pat ++ rest` splits `s` at the first occurrence of
`pat`: no occurrence of `pat` in `s` starts earlier. -/
def IsFirstOccurrence (pat pre rest s : Str) : Prop :=
  s = pre ++ pat ++ rest ∧ ∀ pre' rest', s = pre' ++ pat ++ rest' → pre.length ≤ pre'.length

/-- The split of `s` at the first occurrence of `pat`. -/
def splitFirst (pat : Str) : Str → Option (Str × Str)
  | [] => if pat.isPrefixOf [] then some ([], []) else none
  | c :: rest =>
    if pat.isPrefixOf (c :: rest) then some ([], (c :: rest).drop pat.length)
    else (splitFirst pat rest).map (fun pq => (c :: pq.1, pq.2))

/-! ## The response of the endpoint -/

/-- A day of the itinerary; day 0 marks a conversational reply. -/
structure DayPlan where
  day : Int
  activities : List Str
  deriving DecidableEq

/-- The hotel suggestion. -/
structure Hotel where
  NAME : Str
  CATEGORY : Str
  LOCATION : Str
  PRICE : Str
  AMENITIES : Str
  DESCRIPTION : Str
  RATING : Str
  deriving DecidableEq

/-- The body of a successful response. -/
structure ItineraryResponse where
  itinerary : List DayPlan
  hotel_suggestion : Option Hotel
  recommendations : Option (List Str)
  deriving DecidableEq

/-- A number in a template literal. -/
def numberToString (n : Int) : Str := (toString n).toList

/-! ## Markup -/

/-- The markup of the typing placeholder (lines 74-87). -/
def typingHTML : Str :=
  List.flatten [
    "\n".toList,
    "            <div class=\"mr-2 flex-shrink-0\">\n".toList,
    "                <div class=\"h-8 w-8 rounded-full overflow-hidden\">\n".toList,
    "                    <img src=\"https://hebbkx1anhila5yf.public.blob.vercel-storage.com/image-jOhLU28iALz0Huxz2QAeCmn2So9U0G.png\" \n".toList,
    "                         alt=\"Assistant\" \n".toList,
    "                         class=\"h-full w-full object-cover\">\n".toList,
    "                </div>\n".toList,
    "            </div>\n".toList,
    "            <div class=\"typing-indicator\">\n".toList,
    "                <div class=\"typing-dot\"></div>\n".toList,
    "                <div class=\"typing-dot\"></div>\n".toList,
    "                <div class=\"typing-dot\"></div>\n".toList,
    "            </div>\n".toList,
    "        ".toList]

/-- The markup of a chat message (lines 141-161). -/
def messageHTML (content : Str) (isUser : Bool) : Str :=
  List.flatten [
    "\n".toList,
    "                ".toList,
    (if !isUser then List.flatten [
        "\n".toList,
        "                    <div class=\"mr-2 flex-shrink-0\">\n".toList,
        "                        <div class=\"h-8 w-8 rounded-full overflow-hidden\">\n".toList,
        "                            <img src=\"https://hebbkx1anhila5yf.public.blob.vercel-storage.com/image-jOhLU28iALz0Huxz2QAeCmn2So9U0G.png\" \n".toList,
        "                                 alt=\"Assistant\" \n".toList,
        "                                 class=\"h-full w-full object-cover\">\n".toList,
        "                        </div>\n".toList,
        "                    </div>\n".toList,
        "                ".toList] else []),
    "\n".toList,
    "                <div class=\"max-w-[70%] rounded-lg p-3 ".toList,
    (if isUser then "bg-[#c41e3a]".toList else "bg-[#007acc]".toList),
    " text-white\">\n".toList,
    "                    <p class=\"text-sm\">".toList,
    content,
    "</p>\n".toList,
    "                </div>\n".toList,
    "                ".toList,
    (if isUser then List.flatten [
        "\n".toList,
        "                    <div class=\"ml-2 flex-shrink-0\">\n".toList,
        "                        <div class=\"h-8 w-8 rounded-full bg-[#c41e3a] flex items-center justify-center\">\n".toList,
        "                            <i data-lucide=\"user\" class=\"h-5 w-5 text-white\"></i>\n".toList,
        "                        </div>\n".toList,
        "                    </div>\n".toList,
        "                ".toList] else []),
    "\n".toList,
    "            ".toList]

/-- The hotel card (lines 245-292). -/
def hotelCardHTML (hotel : Hotel) : Str :=
  List.flatten [
    "\n".toList,
    "                <div class=\"mb-8 bg-white rounded-lg shadow-lg overflow-hidden\">\n".toList,
    "                    <div class=\"bg-gradient-to-r from-[#E81D52] to-[#c41e3a] p-4\">\n".toList,
    "                        <h2 class=\"text-xl font-bold text-white flex items-center\">\n".toList,
    "                            <i data-lucide=\"hotel\" class=\"h-6 w-6 mr-2\"></i>\n".toList,
    "                            Recommended Hotel\n".toList,
    "                        </h2>\n".toList,
    "                    </div>\n".toList,
    "                    <div class=\"p-6\">\n".toList,
    "                        <div class=\"grid md:grid-cols-[1fr_2fr] gap-6\">\n".toList,
    "                            <div class=\"relative h-48 rounded-xl overflow-hidden shadow-md\">\n".toList,
    "                                <img \n".toList,
    "                                    src=\"https://hebbkx1anhila5yf.public.blob.vercel-storage.com/dubai-placeholder.jpg\" \n".toList,
    "                                    alt=\"".toList,
    hotel.NAME,
    "\"\n".toList,
    "                                    class=\"object-cover w-full h-full transition-transform duration-300 hover:scale-105\"\n".toList,
    "                                />\n".toList,
    "                                <div class=\"absolute inset-0 bg-gradient-to-t from-black/60 to-transparent\"></div>\n".toList,
    "                                <div class=\"absolute bottom-4 left-4 bg-white/90 px-3 py-1 rounded-full text-sm font-medium text-[#E81D52]\">\n".toList,
    "                                    ".toList,
    hotel.PRICE,
    "\n".toList,
    "                                </div>\n".toList,
    "                            </div>\n".toList,
    "                            <div class=\"flex flex-col justify-between\">\n".toList,
    "                                <div>\n".toList,
    "                                    <div class=\"flex items-center gap-2 mb-2\">\n".toList,
    "                                        <span class=\"text-sm font-medium text-[#E81D52]\">".toList,
    hotel.CATEGORY,
    "</span>\n".toList,
    "                                        <span class=\"text-sm font-medium\">‚≠ê ".toList,
    hotel.RATING,
    "</span>\n".toList,
    "                                    </div>\n".toList,
    "                                    <h3 class=\"text-xl font-semibold text-gray-900 mb-2\">\n".toList,
    "                                        ".toList,
    hotel.NAME,
    "\n".toList,
    "                                    </h3>\n".toList,
    "                                    <p class=\"text-gray-600 mb-3 leading-relaxed\">".toList,
    hotel.DESCRIPTION,
    "</p>\n".toList,
    "                                    <div class=\"flex items-center gap-1 text-sm text-gray-500 mb-2\">\n".toList,
    "                                        <i data-lucide=\"map-pin\" class=\"h-4 w-4\"></i>\n".toList,
    "                                        <span>".toList,
    hotel.LOCATION,
    "</span>\n".toList,
    "                                    </div>\n".toList,
    "                                    <div class=\"flex items-center gap-1 text-sm text-gray-500\">\n".toList,
    "                                        <i data-lucide=\"check\" class=\"h-4 w-4 text-[#E81D52]\"></i>\n".toList,
    "                                        <span>".toList,
    hotel.AMENITIES,
    "</span>\n".toList,
    "                                    </div>\n".toList,
    "                                </div>\n".toList,
    "                                <button class=\"mt-4 w-full bg-[#E81D52] text-white px-4 py-2 rounded-md hover:bg-[#d41848] transition-all duration-200 transform hover:-translate-y-0.5 focus:outline-none focus:ring-2 focus:ring-[#E81D52] focus:ring-opacity-50\">\n".toList,
    "                                    Book Hotel\n".toList,
    "                                </button>\n".toList,
    "                            </div>\n".toList,
    "                        </div>\n".toList,
    "                    </div>\n".toList,
    "                </div>\n".toList,
    "            ".toList]

/-- The header of a day card (lines 299-308). -/
def dayHeaderHTML (day : DayPlan) : Str :=
  List.flatten [
    "\n".toList,
    "                <div class=\"mb-8 bg-white rounded-lg shadow-lg overflow-hidden\">\n".toList,
    "                    <div class=\"bg-gradient-to-r from-[#007acc] to-[#0056b3] p-4\">\n".toList,
    "                        <h2 class=\"text-xl font-bold text-white flex items-center\">\n".toList,
    "                            <i data-lucide=\"calendar\" class=\"h-6 w-6 mr-2\"></i>\n".toList,
    "                            Day ".toList,
    numberToString day.day,
    "\n".toList,
    "                        </h2>\n".toList,
    "                    </div>\n".toList,
    "                    <div class=\"divide-y divide-gray-200\">\n".toList,
    "            ".toList]

/-- The card of one activity (lines 314-349). -/
def activityCardHTML (activity : Activity) : Str :=
  List.flatten [
    "\n".toList,
    "                    <div class=\"p-6 hover:bg-gray-50 transition-colors duration-200\">\n".toList,
    "                        <div class=\"grid md:grid-cols-[1fr_2fr] gap-6\">\n".toList,
    "                            <div class=\"relative h-48 rounded-xl overflow-hidden shadow-md\">\n".toList,
    "                                <img \n".toList,
    "                                    src=\"https://hebbkx1anhila5yf.public.blob.vercel-storage.com/dubai-placeholder.jpg\" \n".toList,
    "                                    alt=\"".toList,
    activity.title,
    "\"\n".toList,
    "                                    class=\"object-cover w-full h-full transition-transform duration-300 hover:scale-105\"\n".toList,
    "                                />\n".toList,
    "                                <div class=\"absolute inset-0 bg-gradient-to-t from-black/60 to-transparent\"></div>\n".toList,
    "                                <div class=\"absolute bottom-4 left-4 bg-white/90 px-3 py-1 rounded-full text-sm font-medium text-[#E81D52]\">\n".toList,
    "                                    ".toList,
    activity.price,
    "\n".toList,
    "                                </div>\n".toList,
    "                            </div>\n".toList,
    "                            <div class=\"flex flex-col justify-between\">\n".toList,
    "                                <div>\n".toList,
    "                                    <div class=\"flex items-center gap-2 mb-2\">\n".toList,
    "                                        <i data-lucide=\"clock\" class=\"h-4 w-4 text-[#E81D52]\"></i>\n".toList,
    "                                        <span class=\"text-sm font-medium text-[#E81D52]\">".toList,
    activity.time,
    "</span>\n".toList,
    "                                    </div>\n".toList,
    "                                    <h3 class=\"text-xl font-semibold text-gray-900 mb-2\">\n".toList,
    "                                        ".toList,
    activity.title,
    "\n".toList,
    "                                    </h3>\n".toList,
    "                                    <p class=\"text-gray-600 mb-3 leading-relaxed\">".toList,
    activity.description,
    "</p>\n".toList,
    "                                    <div class=\"flex items-center gap-1 text-sm text-gray-500\">\n".toList,
    "                                        <i data-lucide=\"map-pin\" class=\"h-4 w-4\"></i>\n".toList,
    "                                        <span>".toList,
    activity.location,
    "</span>\n".toList,
    "                                    </div>\n".toList,
    "                                </div>\n".toList,
    "                                <button class=\"mt-4 w-full bg-[#E81D52] text-white px-4 py-2 rounded-md hover:bg-[#d41848] transition-all duration-200 transform hover:-translate-y-0.5 focus:outline-none focus:ring-2 focus:ring-[#E81D52] focus:ring-opacity-50\">\n".toList,
    "                                    Book Activity\n".toList,
    "                                </button>\n".toList,
    "                            </div>\n".toList,
    "                        </div>\n".toList,
    "                    </div>\n".toList,
    "                ".toList]

/-- The closing markup of a day card (lines 352-355). -/
def dayFooterHTML : Str :=
  List.flatten [
    "\n".toList,
    "                    </div>\n".toList,
    "                </div>\n".toList,
    "            ".toList]

/-- The markup before the tips (lines 412-421). -/
def tipsHeaderHTML : Str :=
  List.flatten [
    "\n".toList,
    "            <div class=\"mt-8 bg-white rounded-lg shadow-lg overflow-hidden\">\n".toList,
    "                <div class=\"bg-gradient-to-r from-[#007acc] to-[#0056b3] p-4\">\n".toList,
    "                    <h3 class=\"flex items-center text-xl font-bold text-white\">\n".toList,
    "                        <i data-lucide=\"lightbulb\" class=\"mr-2 h-6 w-6\"></i>\n".toList,
    "                        Travel Tips & Recommendations\n".toList,
    "                    </h3>\n".toList,
    "                </div>\n".toList,
    "                <div class=\"p-6\">\n".toList,
    "                    <ul class=\"space-y-3\">\n".toList,
    "                        ".toList]

/-- The markup of a list entry up to the tip text (lines 422-425). -/
def tipOpenHTML : Str :=
  List.flatten [
    "\n".toList,
    "                            <li class=\"flex items-start\">\n".toList,
    "                                <i data-lucide=\"check-circle\" class=\"h-5 w-5 text-[#007acc] mr-2 flex-shrink-0 mt-0.5\"></i>\n".toList,
    "                                <span class=\"text-gray-700\">".toList]

/-- The markup of a list entry after the tip text (lines 425-427). -/
def tipCloseHTML : Str :=
  List.flatten [
    "</span>\n".toList,
    "                            </li>\n".toList,
    "                        ".toList]

/-- The markup after the tips (lines 427-431). -/
def tipsFooterHTML : Str :=
  List.flatten [
    "\n".toList,
    "                    </ul>\n".toList,
    "                </div>\n".toList,
    "            </div>\n".toList,
    "        ".toList]

/-! ## `generateRecommendationsHTML` -/

/-- The pattern `^- ` tried at offset `i` of `s`: the length of the match.
Without the `m` flag, `^` holds at offset 0 only. -/
def matchLeadingDashAt (s : Str) (i : Nat) : Option Nat :=
  if i = 0 && "- ".toList.isPrefixOf (s.drop i) then some 2 else none

/-- The call `tip.replace(/^- /, '')` (line 425): the leftmost match, when
there is one, is cut out; the pattern has no `g` flag, so nothing else is. -/
def replaceLeadingDash (s : Str) : Str :=
  match (List.range (s.length + 1)).find? (fun i => (matchLeadingDashAt s i).isSome) with
  | some i => s.take i ++ s.drop (i + (matchLeadingDashAt s i).getD 0)
  | none => s


/-- The function `generateRecommendationsHTML(recommendations)` (lines 411-432). -/
def generateRecommendationsHTML (recommendations : List Str) : Str :=
  tipsHeaderHTML ++
    (recommendations.map (fun tip => tipOpenHTML ++ replaceLeadingDash tip ++ tipCloseHTML)).flatten ++
    tipsFooterHTML

/-! ## `displayItinerary` -/

/-- The markup built by `displayItinerary` (lines 241-361). -/
def itineraryHTML (data : ItineraryResponse) : Str :=
  let hotel : Str :=
    match data.hotel_suggestion with
    | some h => hotelCardHTML h
    | none => []
  let days : Str :=
    (data.itinerary.map (fun day =>
      if day.day = 0 then []
      else dayHeaderHTML day ++
        ((processActivities day.activities).map activityCardHTML).flatten ++
        dayFooterHTML)).flatten
  let tips : Str :=
    match data.recommendations with
    | some recs => if recs.length > 0 then generateRecommendationsHTML recs else []
    | none => []
  hotel ++ days ++ tips

/-! ## The chat widget -/

/-- A `div` of the transcript. -/
structure Element where
  className : Str
  innerHTML : Str
  deriving DecidableEq

/-- A node of the document: an element with its identity. -/
structure Node where
  id : Nat
  el : Element
  deriving DecidableEq

/-- What the handler asks of its environment, in order. -/
inductive Effect where
  | delay (ms : Nat)
  | fetch (preferences : Str)
  | displayItinerary (data : ItineraryResponse)
  deriving DecidableEq

/-- The page as the script sees it.  The three chat elements exist;
`#itinerarySection` and `#itineraryContainer` may be absent. -/
structure Widget where
  /-- The children of `#chatContainer`, in document order. -/
  chatContainer : List Node
  /-- The identity the next created element gets. -/
  nextId : Nat
  /-- The field `userInput.value`. -/
  inputValue : Str
  /-- The field `userInput.disabled`. -/
  inputDisabled : Bool
  /-- Has `userInput.focus()` been called last? -/
  inputFocused : Bool
  /-- Does `#itinerarySection` carry the class `hidden`? -/
  itinerarySectionHidden : Option Bool
  /-- The field `innerHTML` of `#itineraryContainer`. -/
  itineraryContainer : Option Str
  /-- The requests and renderer calls made so far. -/
  effects : List Effect
  deriving DecidableEq

/-- The typing placeholder (lines 72-87). -/
def typingElement : Element :=
  { className := "flex items-start justify-start mb-4".toList, innerHTML := typingHTML }

/-- The `div` of a chat message (lines 138-163). -/
def messageElement (content : Str) (isUser : Bool) : Element :=
  { className := List.flatten ["flex items-start ".toList,
      (if isUser then "justify-end".toList else "justify-start".toList), " mb-4".toList],
    innerHTML := messageHTML content isUser }

/-- The call `chatContainer.appendChild(document.createElement('div'))` with
the element filled in. -/
def appendChild (w : Widget) (el : Element) : Widget :=
  { w with chatContainer := w.chatContainer ++ [{ id := w.nextId, el := el }],
           nextId := w.nextId + 1 }

/-- The call `node.remove()`. -/
def removeNode (w : Widget) (id : Nat) : Widget :=
  { w with chatContainer := w.chatContainer.filter (fun n => n.id != id) }

/-- The function `addMessage(content, isUser)` for a string or `undefined` content
(lines 133-165); `none` is `undefined`. -/
def addMessage (w : Widget) (content : Option Str) (isUser : Bool) : Widget :=
  match content with
  | none => w
  | some text => if text.isEmpty then w else appendChild w (messageElement text isUser)

/-- The function `displayItinerary(data)` (lines 237-365). -/
def displayItinerary (w : Widget) (data : ItineraryResponse) : Widget :=
  let w1 := { w with effects := w.effects ++ [Effect.displayItinerary data] }
  match w1.itineraryContainer with
  | none => w1
  | some _ => { w1 with itineraryContainer := some (itineraryHTML data) }

/-- The body of a response, as `response.json()` settles. -/
inductive Body where
  | malformed (detail : Str)
  | json (data : ItineraryResponse)
  deriving DecidableEq

/-- How the exchange with the endpoint ends. -/
inductive Outcome where
  | rejected (detail : Str)
  | response (status : Nat) (body : Body)
  deriving DecidableEq

/-- The field `response.ok`. -/
def responseOk (status : Nat) : Bool := 200 ≤ status && status ≤ 299

/-- The message of line 116. -/
def confirmationText : Str :=
  "I've created your personalized Dubai itinerary! You can now view it!".toList

/-- The message of line 125. -/
def errorText : Str := "Sorry, I encountered an error. Please try again.".toList

/-- The handler up to the `try` (lines 62-88): `none` when it returns at
line 64, else the page, the message and the identity of the placeholder. -/
def submitPrologue (w : Widget) : Option (Widget × Str × Nat) :=
  let message := trim w.inputValue
  if message.isEmpty then none
  else
    let w1 := addMessage w (some message) true
    let w2 := { w1 with inputValue := [], inputDisabled := true }
    some (appendChild w2 typingElement, message, w2.nextId)

/-- The `try` block (lines 91-119): the page it leaves and whether it threw. -/
def tryBlock (w : Widget) (message : Str) (typingId : Nat) (o : Outcome) : Widget × Bool :=
  let w1 := { w with effects := w.effects ++ [Effect.delay 1000, Effect.fetch message] }
  match o with
  | .rejected _ => (w1, true)
  | .response status body =>
    if !responseOk status then (w1, true)
    else
      match body with
      | .malformed _ => (w1, true)
      | .json data =>
        let w2 := removeNode w1 typingId
        match data.itinerary with
        | [] => (w2, true)
        | first :: _ =>
          if first.day = 0 then (addMessage w2 first.activities.head? false, false)
          else
            let w3 := addMessage w2 (some confirmationText) false
            let w4 := displayItinerary w3 data
            ({ w4 with itinerarySectionHidden :=
                w4.itinerarySectionHidden.map (fun _ => false) }, false)

/-- The `catch` block (lines 121-125). -/
def catchBlock (w : Widget) (typingId : Nat) : Widget :=
  addMessage (removeNode w typingId) (some errorText) false

/-- The `finally` block (lines 127-128). -/
def finallyBlock (w : Widget) : Widget :=
  { w with inputDisabled := false, inputFocused := true }

/-- The handler from the `try` on (lines 90-129). -/
def submitExchange (w : Widget) (message : Str) (typingId : Nat) (o : Outcome) : Widget :=
  let r := tryBlock w message typingId o
  finallyBlock (if r.2 then catchBlock r.1 typingId else r.1)

/-- The submit handler (lines 61-130), run to completion against one
outcome of the exchange. -/
def submit (w : Widget) (o : Outcome) : Widget :=
  match submitPrologue w with
  | none => w
  | some (w1, message, typingId) => submitExchange w1 message typingId o

/-- Every node of the transcript was created before the next identity. -/
def Widget.WellFormed (w : Widget) : Prop := ∀ n ∈ w.chatContainer, n.id < w.nextId

/-- The transcript as the user reads it. -/
def Widget.transcript (w : Widget) : List Element := w.chatContainer.map (fun n => n.el)

/-! ## Example pages and responses -/

/-- A page with an empty transcript, a hidden itinerary panel and ` hi ` typed
into the input. -/
def hiddenPanelWidget : Widget :=
  { chatContainer := [], nextId := 0, inputValue := " hi ".toList, inputDisabled := false,
    inputFocused := true, itinerarySectionHidden := some true,
    itineraryContainer := some [], effects := [] }

/-- A response whose first day plan is a reply and whose second is a day. -/
def mixedResponse : ItineraryResponse :=
  { itinerary := [{ day := 0, activities := ["hello".toList] },
      { day := 1, activities := ["TIME: 9am".toList, "TITLE: Beach".toList] }],
    hotel_suggestion := none, recommendations := none }

/-- A successful reply whose day plan carries no text at all. -/
def textlessReply : ItineraryResponse :=
  { itinerary := [{ day := 0, activities := [] }],
    hotel_suggestion := none, recommendations := none }

/-- A successful reply whose text is the empty string. -/
def emptyTextReply : ItineraryResponse :=
  { itinerary := [{ day := 0, activities := [[]] }],
    hotel_suggestion := none, recommendations := none }

/-- The assistant messages a day-0 reply adds: the text of `activities[0]`
when it is a non-empty string. -/
def replyMessages (first : DayPlan) : List Element :=
  match first.activities.head? with
  | some t => if t = [] then [] else [messageElement t false]
  | none => []

/-- The failures of the exchange: the request is rejected, the status is
not a success, the body is not JSON, or the itinerary list is empty. -/
def Outcome.IsFailure (o : Outcome) : Prop :=
  (∃ detail, o = .rejected detail) ∨
  (∃ status body, o = .response status body ∧ responseOk status = false) ∨
  (∃ status detail, o = .response status (.malformed detail)) ∨
  (∃ status data, o = .response status (.json data) ∧ data.itinerary = [])

/-! # Theorems -/

/-! ## The parser: groups and the single derivation -/

theorem groupsAux_length (ls : List Str) :
    (groupsAux ls).2.length = ls.countP opensRecord := by
  induction ls with
  | nil => rfl
  | cons l rest ih =>
    by_cases h : opensRecord l = true <;> simp [groupsAux, h, ih]

theorem groupsAux_waiting (ls : List Str) :
    ∀ l ∈ (groupsAux ls).1, opensRecord l = false := by
  induction ls with
  | nil => simp [groupsAux]
  | cons l rest ih =>
    by_cases h : opensRecord l = true
    · simp [groupsAux, h]
    · intro x hx
      simp only [groupsAux, h, Bool.false_eq_true, if_false, List.mem_cons] at hx
      rcases hx with rfl | hx
      · simpa using h
      · exact ih x hx

theorem groupsAux_flatten (ls : List Str) :
    (groupsAux ls).1 ++ (groupsAux ls).2.flatten = ls := by
  induction ls with
  | nil => rfl
  | cons l rest ih =>
    by_cases h : opensRecord l = true
    · simp only [groupsAux, h, if_true, List.nil_append, List.flatten_cons, List.cons_append]
      rw [ih]
    · simp only [groupsAux, h, Bool.false_eq_true, if_false, List.cons_append]
      rw [ih]

theorem groupsAux_shape (ls : List Str) :
    ∀ g ∈ (groupsAux ls).2, ∃ h t, g = h :: t ∧ opensRecord h = true ∧
      ∀ l ∈ t, opensRecord l = false := by
  induction ls with
  | nil => simp [groupsAux]
  | cons l rest ih =>
    by_cases h : opensRecord l = true
    · intro g hg
      simp only [groupsAux, h, if_true, List.mem_cons] at hg
      rcases hg with rfl | hg
      · exact ⟨l, _, rfl, h, groupsAux_waiting rest⟩
      · exact ih g hg
    · intro g hg
      simp only [groupsAux, h, Bool.false_eq_true, if_false] at hg
      exact ih g hg

theorem lineGroups_flatten (ls : List Str) :
    (lineGroups ls).flatten = ls.dropWhile (fun l => !opensRecord l) := by
  induction ls with
  | nil => rfl
  | cons l rest ih =>
    by_cases h : opensRecord l = true
    · have := groupsAux_flatten rest
      simp only [lineGroups, groupsAux, h, if_true, List.flatten_cons, List.cons_append,
        List.dropWhile_cons, Bool.not_true, Bool.false_eq_true, if_false]
      rw [this]
    · simp only [lineGroups] at ih
      simp only [lineGroups, groupsAux, h, Bool.false_eq_true, if_false, List.dropWhile_cons]
      simp only [Bool.not_eq_true] at h
      simp [h, ih]

/-- Text appended to the buffer by the lines that follow the opening line. -/
theorem joinLines_cons (l : Str) (cur : List Str) :
    joinLines (l :: cur) = l ++ (cur.map (fun x => '\n' :: x)).flatten := by
  induction cur generalizing l with
  | nil => simp [joinLines, List.intercalate, List.intersperse]
  | cons x rest ih =>
    have := ih x
    simp only [joinLines, List.intercalate] at this ⊢
    simp only [List.intersperse, List.flatten_cons, List.map_cons, List.cons_append,
      List.singleton_append]
    rw [this]
    simp

theorem fold_processLine (ls : List Str) :
    ∀ st : ParseState,
      (st.currentActivity = none ∨
        st.currentActivity = some (deriveFields st.activityText)) →
      (ls.foldl processLine st).finish =
        st.processedActivities ++
          (match st.currentActivity with
            | none => []
            | some _ => [deriveFields (st.activityText ++
                ((groupsAux ls).1.map (fun x => '\n' :: x)).flatten)]) ++
          (groupsAux ls).2.map (fun g => deriveFields (joinLines g)) := by
  induction ls with
  | nil =>
    intro st hst
    rcases hst with h | h <;> simp [ParseState.finish, groupsAux, h]
  | cons l rest ih =>
    intro st hst
    rw [List.foldl_cons]
    by_cases hl : opensRecord l = true
    · have hl' : includes l "TIME:".toList = true := hl
      have e : processLine st l =
          { processedActivities :=
              (match st.currentActivity with
                | some a => st.processedActivities ++ [a]
                | none => st.processedActivities)
            currentActivity := some (deriveFields l)
            activityText := l } := by
        simp only [processLine, hl', if_true]
      rw [e, ih _ (Or.inr rfl)]
      rcases hst with h | h <;>
        simp [groupsAux, hl, h, joinLines_cons]
    · have hl' : includes l "TIME:".toList = false := by
        simpa [opensRecord] using hl
      rcases hst with h | h
      · have e : processLine st l =
            { st with activityText := st.activityText ++ '\n' :: l } := by
          simp only [processLine, hl', Bool.false_eq_true, if_false, h]
        rw [e, ih { st with activityText := st.activityText ++ '\n' :: l } (Or.inl h)]
        simp [groupsAux, hl, h]
      · have e : processLine st l =
            { processedActivities := st.processedActivities
              currentActivity := some (deriveFields (st.activityText ++ '\n' :: l))
              activityText := st.activityText ++ '\n' :: l } := by
          simp only [processLine, hl', Bool.false_eq_true, if_false, h]
        rw [e, ih _ (Or.inr rfl)]
        simp [groupsAux, hl, h]

theorem processActivities_eq_deriveOncePerGroup (lines : List Str) :
    processActivities lines = deriveOncePerGroup lines := by
  unfold processActivities
  rw [fold_processLine lines ParseState.init (Or.inl rfl)]
  simp [ParseState.init, deriveOncePerGroup, recordBuffers, lineGroups]

/-! ## Searching a buffer -/

theorem includes_iff (pat : Str) (s : Str) :
    includes s pat = true ↔ ∃ pre rest, s = pre ++ pat ++ rest := by
  induction s with
  | nil =>
    cases pat with
    | nil => simp [includes]
    | cons p ps => simp [includes]
  | cons c rest ih =>
    simp only [includes, Bool.or_eq_true, List.isPrefixOf_iff_prefix, ih]
    constructor
    · rintro (⟨t, ht⟩ | ⟨pre, r, h⟩)
      · exact ⟨[], t, by simpa using ht.symm⟩
      · exact ⟨c :: pre, r, by simp [h]⟩
    · rintro ⟨pre, r, h⟩
      cases pre with
      | nil => exact Or.inl ⟨r, by simpa using h.symm⟩
      | cons d pre' =>
        simp only [List.cons_append, List.cons.injEq] at h
        exact Or.inr ⟨pre', r, by simpa using h.2⟩

theorem includes_of_includes_append (s t u : Str) (h : includes s (t ++ u) = true) :
    includes s t = true := by
  rw [includes_iff] at h ⊢
  obtain ⟨pre, rest, h⟩ := h
  exact ⟨pre, u ++ rest, by simp [h]⟩

theorem matchField_some_includes (lit : Str) (s : Str) (m : Str)
    (h : matchField lit s = some m) : includes s lit = true := by
  induction s with
  | nil =>
    by_cases hp : lit.isPrefixOf ([] : Str) = true
    · cases lit with
      | nil => rfl
      | cons p ps => simp at hp
    · simp [matchField, hp] at h
  | cons c rest ih =>
    by_cases hp : lit.isPrefixOf (c :: rest) = true
    · simp [includes, hp]
    · simp only [matchField, hp, Bool.false_eq_true, if_false] at h
      simp [includes, ih h]

theorem matchField_none_of_not_includes (lit : Str) (s : Str)
    (h : includes s lit = false) : matchField lit s = none := by
  cases hm : matchField lit s with
  | none => rfl
  | some m => rw [matchField_some_includes lit s m hm] at h; cases h

theorem Field.pattern_eq (f : Field) : f.pattern = f.tag ++ [' '] := by
  cases f <;> rfl

theorem Field.newline_not_mem_pattern (f : Field) : '\n' ∉ f.pattern := by
  cases f <;> decide

theorem Field.get_deriveFields (f : Field) (buf : Str) :
    f.get (deriveFields buf) =
      match matchField f.pattern buf with
      | some m => trim m
      | none => f.placeholder := by
  cases f <;> rfl

theorem lazyCapture_eq (s : Str) (hs : ∀ c ∈ s, isLineTerminator c = true → c = '\n') :
    lazyCapture s = some (s.takeWhile (fun c => c != '\n')) := by
  induction s with
  | nil => rfl
  | cons c rest ih =>
    have ih' := ih (fun d hd => hs d (List.mem_cons_of_mem _ hd))
    by_cases hc : c = '\n'
    · simp [lazyCapture, hc]
    · have hlt : isLineTerminator c = false := by
        cases hx : isLineTerminator c with
        | false => rfl
        | true => exact absurd (hs c (List.mem_cons_self _ _) hx) hc
      simp [lazyCapture, hc, hlt, ih']

theorem splitFirst_cons_pos (pat : Str) (c : Char) (r : Str)
    (hp : pat.isPrefixOf (c :: r) = true) :
    splitFirst pat (c :: r) = some ([], (c :: r).drop pat.length) := by
  simp only [splitFirst, hp, if_true]

theorem splitFirst_cons_neg (pat : Str) (c : Char) (r : Str)
    (hp : ¬ pat.isPrefixOf (c :: r) = true) :
    splitFirst pat (c :: r) = (splitFirst pat r).map (fun pq => (c :: pq.1, pq.2)) := by
  simp only [splitFirst, hp, Bool.false_eq_true, if_false]

theorem splitFirst_isFirst (pat : Str) (s pre rest : Str)
    (h : splitFirst pat s = some (pre, rest)) : IsFirstOccurrence pat pre rest s := by
  induction s generalizing pre with
  | nil =>
    by_cases hp : pat.isPrefixOf ([] : Str) = true
    · cases pat with
      | nil =>
        simp only [splitFirst, hp, if_true, Option.some.injEq, Prod.mk.injEq] at h
        obtain ⟨rfl, rfl⟩ := h
        exact ⟨rfl, fun _ _ _ => Nat.zero_le _⟩
      | cons p ps => simp at hp
    · simp [splitFirst, hp] at h
  | cons c r ih =>
    by_cases hp : pat.isPrefixOf (c :: r) = true
    · simp only [splitFirst, hp, if_true, Option.some.injEq, Prod.mk.injEq] at h
      obtain ⟨rfl, rfl⟩ := h
      refine ⟨?_, fun _ _ _ => Nat.zero_le _⟩
      rw [List.isPrefixOf_iff_prefix] at hp
      obtain ⟨t, ht⟩ := hp
      rw [← ht]
      simp
    · rw [splitFirst_cons_neg pat c r hp] at h
      cases hpq : splitFirst pat r with
      | none => rw [hpq] at h; cases h
      | some pq =>
      obtain ⟨p0, q⟩ := pq
      rw [hpq] at h
      simp only [Option.map_some', Option.some.injEq, Prod.mk.injEq] at h
      obtain ⟨rfl, rfl⟩ := h
      obtain ⟨h1, h2⟩ := ih p0 hpq
      refine ⟨by simp [h1], ?_⟩
      intro pre' rest' hs
      cases pre' with
      | nil =>
        exfalso
        apply hp
        rw [List.isPrefixOf_iff_prefix]
        exact ⟨rest', by simpa using hs.symm⟩
      | cons d pre'' =>
        simp only [List.cons_append, List.cons.injEq] at hs
        have := h2 pre'' rest' (by simpa using hs.2)
        simpa using this

theorem isFirst_splitFirst (pat : Str) (s pre rest : Str)
    (h : IsFirstOccurrence pat pre rest s) : splitFirst pat s = some (pre, rest) := by
  induction pre generalizing s with
  | nil =>
    obtain ⟨h1, -⟩ := h
    subst h1
    cases hs : ([] : Str) ++ pat ++ rest with
    | nil =>
      simp only [List.nil_append, List.append_eq_nil] at hs
      obtain ⟨rfl, rfl⟩ := hs
      rfl
    | cons c r =>
      have hp : pat.isPrefixOf (c :: r) = true := by
        rw [List.isPrefixOf_iff_prefix, ← hs]; exact ⟨rest, by simp⟩
      simp only [splitFirst, hp, if_true]
      rw [← hs]; simp
  | cons d pre' ih =>
    obtain ⟨h1, h2⟩ := h
    subst h1
    have hp : ¬ pat.isPrefixOf (d :: (pre' ++ pat ++ rest)) = true := by
      rw [List.isPrefixOf_iff_prefix]
      rintro ⟨t, ht⟩
      have := h2 [] t (by simpa using ht.symm)
      simp at this
    have hrec : splitFirst pat (pre' ++ pat ++ rest) = some (pre', rest) := by
      apply ih
      refine ⟨rfl, ?_⟩
      intro p r hpr
      have := h2 (d :: p) r (by simp [hpr])
      simpa using this
    have e : d :: pre' ++ pat ++ rest = d :: (pre' ++ pat ++ rest) := by simp
    rw [e, splitFirst_cons_neg pat d _ hp, hrec]
    rfl

theorem splitFirst_of_includes (pat : Str) (s : Str) (h : includes s pat = true) :
    ∃ pre rest, splitFirst pat s = some (pre, rest) := by
  induction s with
  | nil =>
    cases pat with
    | nil => exact ⟨[], [], rfl⟩
    | cons p ps => simp [includes] at h
  | cons c r ih =>
    by_cases hp : pat.isPrefixOf (c :: r) = true
    · exact ⟨[], (c :: r).drop pat.length, splitFirst_cons_pos pat c r hp⟩
    · simp only [includes, hp, Bool.false_eq_true, Bool.false_or] at h
      obtain ⟨p0, q, hpq⟩ := ih h
      exact ⟨c :: p0, q, by rw [splitFirst_cons_neg pat c r hp, hpq]; rfl⟩

theorem matchField_eq_splitFirst (lit : Str) (s : Str)
    (hs : ∀ c ∈ s, isLineTerminator c = true → c = '\n') :
    matchField lit s =
      (splitFirst lit s).map (fun pq => pq.2.takeWhile (fun c => c != '\n')) := by
  induction s with
  | nil =>
    by_cases hp : lit.isPrefixOf ([] : Str) = true <;>
      simp [matchField, splitFirst, hp, lazyCapture]
  | cons c r ih =>
    have ih' := ih (fun d hd => hs d (List.mem_cons_of_mem _ hd))
    by_cases hp : lit.isPrefixOf (c :: r) = true
    · have hd : ∀ x ∈ (c :: r).drop lit.length, isLineTerminator x = true → x = '\n' :=
        fun x hx => hs x (List.mem_of_mem_drop hx)
      simp only [matchField, splitFirst, hp, if_true, lazyCapture_eq _ hd, Option.map_some']
    · simp only [matchField, splitFirst, hp, Bool.false_eq_true, if_false, ih',
        Option.map_map]
      rfl

/-! ## Searching a buffer made of lines -/

theorem isPrefixOf_append_newline (pat : Str) (hpat : '\n' ∉ pat) (x y : Str) :
    pat.isPrefixOf (x ++ '\n' :: y) = pat.isPrefixOf x := by
  induction pat generalizing x with
  | nil => simp
  | cons p ps ih =>
    have hp : p ≠ '\n' := fun h => hpat (by simp [h])
    have hps : '\n' ∉ ps := fun h => hpat (List.mem_cons_of_mem _ h)
    cases x with
    | nil => simp [List.isPrefixOf, hp]
    | cons c x' =>
      have := ih hps x'
      simp only [List.cons_append, List.isPrefixOf]
      rw [← this]
      rfl

theorem splitFirst_append_newline_of_not_includes (pat : Str) (hpat : '\n' ∉ pat)
    (x y : Str) (hx : includes x pat = false) :
    splitFirst pat (x ++ '\n' :: y) =
      (splitFirst pat y).map (fun pq => (x ++ '\n' :: pq.1, pq.2)) := by
  induction x with
  | nil =>
    have hp : ¬ pat.isPrefixOf ('\n' :: y) = true := by
      have := isPrefixOf_append_newline pat hpat [] y
      simp only [List.nil_append] at this
      rw [this]
      cases pat with
      | nil => simp [includes] at hx
      | cons p ps => simp
    rw [List.nil_append, splitFirst_cons_neg pat '\n' y hp]
    rfl
  | cons c x' ih =>
    simp only [includes, Bool.or_eq_false_iff] at hx
    have hp : ¬ pat.isPrefixOf (c :: (x' ++ '\n' :: y)) = true := by
      have := isPrefixOf_append_newline pat hpat (c :: x') y
      simp only [List.cons_append] at this
      rw [this, hx.1]; simp
    rw [List.cons_append, splitFirst_cons_neg pat c _ hp, ih hx.2, Option.map_map]
    rfl

theorem splitFirst_append_newline_of_some (pat : Str) (hpat : '\n' ∉ pat)
    (x y a b : Str) (hx : splitFirst pat x = some (a, b)) :
    splitFirst pat (x ++ '\n' :: y) = some (a, b ++ '\n' :: y) := by
  induction x generalizing a with
  | nil =>
    cases pat with
    | nil =>
      simp only [splitFirst, List.isPrefixOf, if_true, Option.some.injEq, Prod.mk.injEq] at hx
      obtain ⟨rfl, rfl⟩ := hx
      rfl
    | cons p ps => simp [splitFirst] at hx
  | cons c x' ih =>
    have hpre := isPrefixOf_append_newline pat hpat (c :: x') y
    simp only [List.cons_append] at hpre
    by_cases hp : pat.isPrefixOf (c :: x') = true
    · rw [splitFirst_cons_pos pat c x' hp] at hx
      simp only [Option.some.injEq, Prod.mk.injEq] at hx
      obtain ⟨rfl, rfl⟩ := hx
      rw [List.cons_append, splitFirst_cons_pos pat c _ (by rw [hpre, hp])]
      have hle : pat.length ≤ (c :: x').length := by
        rw [List.isPrefixOf_iff_prefix] at hp
        exact hp.length_le
      rw [← List.cons_append, List.drop_append_of_le_length hle]
    · rw [splitFirst_cons_neg pat c x' hp] at hx
      cases hq : splitFirst pat x' with
      | none => rw [hq] at hx; cases hx
      | some pq =>
        obtain ⟨p0, q⟩ := pq
        rw [hq] at hx
        simp only [Option.map_some', Option.some.injEq, Prod.mk.injEq] at hx
        obtain ⟨rfl, rfl⟩ := hx
        rw [List.cons_append, splitFirst_cons_neg pat c _ (by rw [hpre]; exact hp),
          ih p0 hq]
        rfl

theorem joinLines_cons_cons (x y : Str) (rest : List Str) :
    joinLines (x :: y :: rest) = x ++ '\n' :: joinLines (y :: rest) := by
  simp [joinLines_cons]

/-- The first line of a group that holds the pattern decides where the
buffer of the group is split. -/
theorem splitFirst_joinLines (pat : Str) (hpat : '\n' ∉ pat)
    (before : List Str) (l : Str) (after : List Str) (a b : Str)
    (hbefore : ∀ x ∈ before, includes x pat = false)
    (hl : splitFirst pat l = some (a, b)) :
    splitFirst pat (joinLines (before ++ l :: after)) =
      some ((before.map (fun x => x ++ ['\n'])).flatten ++ a,
        b ++ (after.map (fun x => '\n' :: x)).flatten) := by
  induction before with
  | nil =>
    cases after with
    | nil => simpa [joinLines_cons] using hl
    | cons y ys =>
      rw [List.nil_append, joinLines_cons_cons,
        splitFirst_append_newline_of_some pat hpat l _ a b hl]
      simp [joinLines_cons]
  | cons x before' ih =>
    have hx : includes x pat = false := hbefore x (List.mem_cons_self _ _)
    have ih' := ih (fun z hz => hbefore z (List.mem_cons_of_mem _ hz))
    cases hb : before' ++ l :: after with
    | nil => simp at hb
    | cons y ys =>
      rw [List.cons_append, hb, joinLines_cons_cons,
        splitFirst_append_newline_of_not_includes pat hpat x _ hx, ← hb, ih']
      simp

theorem mem_joinLines (g : List Str) (c : Char) (hc : c ∈ joinLines g) :
    c = '\n' ∨ ∃ l ∈ g, c ∈ l := by
  cases g with
  | nil => simp [joinLines, List.intercalate] at hc
  | cons l cur =>
    rw [joinLines_cons] at hc
    simp only [List.mem_append, List.mem_flatten, List.mem_map] at hc
    rcases hc with h | ⟨_, ⟨x, hx, rfl⟩, h⟩
    · exact Or.inr ⟨l, List.mem_cons_self _ _, h⟩
    · simp only [List.mem_cons] at h
      rcases h with h | h
      · exact Or.inl h
      · exact Or.inr ⟨x, List.mem_cons_of_mem _ hx, h⟩

theorem mem_lines_of_mem_lineGroups (lines : List Str) (g : List Str)
    (hg : g ∈ lineGroups lines) (l : Str) (hl : l ∈ g) : l ∈ lines := by
  have h1 : l ∈ (lineGroups lines).flatten := List.mem_flatten.2 ⟨g, hg, hl⟩
  rw [lineGroups_flatten] at h1
  exact (List.dropWhile_sublist _).subset h1

/-- A buffer built from lines without line terminators holds no line
terminator but the line feeds that join the lines. -/
theorem buffer_terminators (lines : List Str)
    (hlt : ∀ l ∈ lines, ∀ c ∈ l, isLineTerminator c = false)
    (g : List Str) (hg : g ∈ lineGroups lines) :
    ∀ c ∈ joinLines g, isLineTerminator c = true → c = '\n' := by
  intro c hc ht
  rcases mem_joinLines g c hc with h | ⟨l, hl, hcl⟩
  · exact h
  · rw [hlt l (mem_lines_of_mem_lineGroups lines g hg l hl) c hcl] at ht
    cases ht

theorem takeWhile_append_newline (b tail : Str) (hb : '\n' ∉ b)
    (htail : tail = [] ∨ ∃ t, tail = '\n' :: t) :
    (b ++ tail).takeWhile (fun c => c != '\n') = b := by
  induction b with
  | nil =>
    rcases htail with rfl | ⟨t, rfl⟩ <;> simp
  | cons c b' ih =>
    have hc : c ≠ '\n' := fun h => hb (by simp [h])
    have := ih (fun h => hb (List.mem_cons_of_mem _ h))
    rw [List.cons_append, List.takeWhile_cons]
    simp [hc, this]

theorem flatten_map_newline_shape (after : List Str) :
    (after.map (fun x => '\n' :: x)).flatten = [] ∨
      ∃ t, (after.map (fun x => '\n' :: x)).flatten = '\n' :: t := by
  cases after with
  | nil => exact Or.inl rfl
  | cons y ys => exact Or.inr ⟨y ++ (ys.map (fun x => '\n' :: x)).flatten, by simp⟩

theorem processActivities_eq_map_lineGroups (lines : List Str) :
    processActivities lines = (lineGroups lines).map (fun g => deriveFields (joinLines g)) := by
  rw [processActivities_eq_deriveOncePerGroup]
  simp [deriveOncePerGroup, recordBuffers]

/-- Every record of the result, paired with its group of lines. -/
theorem forall₂_records_groups (lines : List Str) (R : Activity → List Str → Prop)
    (h : ∀ g ∈ lineGroups lines, R (deriveFields (joinLines g)) g) :
    List.Forall₂ R (processActivities lines) (lineGroups lines) := by
  rw [processActivities_eq_map_lineGroups, List.forall₂_map_left_iff, List.forall₂_same]
  exact h

/-- Every record of the result, paired with its final buffer. -/
theorem forall₂_records_buffers (lines : List Str) (R : Activity → Str → Prop)
    (h : ∀ g ∈ lineGroups lines, R (deriveFields (joinLines g)) (joinLines g)) :
    List.Forall₂ R (processActivities lines) (recordBuffers lines) := by
  rw [processActivities_eq_map_lineGroups, recordBuffers, List.forall₂_map_left_iff,
    List.forall₂_map_right_iff, List.forall₂_same]
  exact h

theorem get_of_first_occurrence (f : Field) (buf pre rest : Str)
    (hbuf : ∀ c ∈ buf, isLineTerminator c = true → c = '\n')
    (h : IsFirstOccurrence f.pattern pre rest buf) :
    f.get (deriveFields buf) = trim (rest.takeWhile (fun c => c != '\n')) := by
  rw [Field.get_deriveFields, matchField_eq_splitFirst _ _ hbuf,
    isFirst_splitFirst _ _ _ _ h]
  rfl

/-! ## The claims on `processActivities` -/

/-- C1: `processActivities` returns as many records as there are lines
containing `TIME:`; a sequence with no such line yields the empty list, and
the four lines `TIME: 9am`, `TITLE: A`, `TIME: 11am`, `TITLE: B` yield two
records titled `A` then `B`. -/
theorem processActivities_length (lines : List Str) :
    (processActivities lines).length =
        lines.countP (fun l => includes l "TIME:".toList) ∧
      ((∀ l ∈ lines, includes l "TIME:".toList = false) → processActivities lines = []) ∧
      (processActivities ["TIME: 9am".toList, "TITLE: A".toList, "TIME: 11am".toList,
          "TITLE: B".toList]).map (fun a => a.title) = ["A".toList, "B".toList] ∧
      processActivities ["TITLE: Orphan".toList] = [] := by
  have hlen : (processActivities lines).length =
      lines.countP (fun l => includes l "TIME:".toList) := by
    rw [processActivities_eq_map_lineGroups, List.length_map]
    exact groupsAux_length lines
  refine ⟨hlen, ?_, by decide, by decide⟩
  intro h
  apply List.eq_nil_of_length_eq_zero
  rw [hlen, List.countP_eq_zero]
  intro l hl
  rw [h l hl]
  exact Bool.false_ne_true

/-- C1, at a day of five lines of which two contain `TIME:`. -/
theorem processActivities_length_witness :
    (processActivities ["Morning".toList, "TIME: 9am".toList, "TITLE: A".toList,
        "x TIME:".toList, "PRICE: 5".toList]).length = 2 ∧
      processActivities ["TITLE: Orphan".toList, "PRICE: 5".toList] = [] :=
  ⟨by decide,
    (processActivities_length ["TITLE: Orphan".toList, "PRICE: 5".toList]).2.1 (by decide)⟩

/-- C2: the k-th record of `processActivities` is the record derived once
from the final buffer of the k-th group, the k-th line containing `TIME:`
followed by the lines up to the next such line, joined with line feeds.
The groups are the consecutive blocks of the lines from the first `TIME:`
line on, each opened by a `TIME:` line and holding no other. -/
theorem processActivities_refines_single_derivation (lines : List Str) :
    processActivities lines = deriveOncePerGroup lines ∧
      deriveOncePerGroup lines =
        (lineGroups lines).map (fun g => deriveFields (List.intercalate ['\n'] g)) ∧
      (lineGroups lines).flatten =
        lines.dropWhile (fun l => !includes l "TIME:".toList) ∧
      (∀ g ∈ lineGroups lines, ∃ h t, g = h :: t ∧ includes h "TIME:".toList = true ∧
        ∀ l ∈ t, includes l "TIME:".toList = false) := by
  refine ⟨processActivities_eq_deriveOncePerGroup lines, ?_, lineGroups_flatten lines,
    groupsAux_shape lines⟩
  simp [deriveOncePerGroup, recordBuffers, joinLines]

/-- C3: in every record, a field whose tag does not occur in the record's
buffer holds its placeholder, whatever other tags occur; the lines
`TIME: 10am`, `TITLE: Tour` yield one record with the three other fields at
their placeholders. -/
theorem absent_tag_yields_placeholder (lines : List Str) :
    List.Forall₂
        (fun rec buf => ∀ f : Field, includes buf f.tag = false → f.get rec = f.placeholder)
        (processActivities lines) (recordBuffers lines) ∧
      (∀ (buf : Str) (f : Field), includes buf f.tag = false →
        f.get (deriveFields buf) = f.placeholder) ∧
      processActivities ["TIME: 10am".toList, "TITLE: Tour".toList] =
        [{ time := "10am".toList, title := "Tour".toList,
           description := "No description available".toList,
           location := "Location TBD".toList, price := "Price on request".toList }] := by
  have key : ∀ (buf : Str) (f : Field), includes buf f.tag = false →
      f.get (deriveFields buf) = f.placeholder := by
    intro buf f h
    have hp : includes buf f.pattern = false := by
      cases hx : includes buf f.pattern with
      | false => rfl
      | true =>
        rw [Field.pattern_eq] at hx
        rw [includes_of_includes_append _ _ _ hx] at h
        cases h
    rw [Field.get_deriveFields, matchField_none_of_not_includes _ _ hp]
  exact ⟨forall₂_records_buffers lines _ (fun g _ f h => key _ f h), key, by decide⟩

/-- C4 as stated fails: in the buffer `TIME:9am` the tag `TIME:` occurs and
is followed by `9am`, yet the record's time is the placeholder. -/
theorem tag_without_space_counterexample :
    processActivities ["TIME:9am".toList] =
        [{ time := "Time TBD".toList, title := "Activity".toList,
           description := "No description available".toList,
           location := "Location TBD".toList, price := "Price on request".toList }] ∧
      recordBuffers ["TIME:9am".toList] = ["TIME:9am".toList] ∧
      (∀ c ∈ "TIME:9am".toList, isLineTerminator c = false) ∧
      ¬ List.Forall₂
        (fun rec buf => ∀ (f : Field) (pre rest : Str), IsFirstOccurrence f.tag pre rest buf →
          f.get rec = trim (rest.takeWhile (fun c => c != '\n')))
        (processActivities ["TIME:9am".toList]) (recordBuffers ["TIME:9am".toList]) := by
  refine ⟨by decide, by decide, by decide, ?_⟩
  intro h
  have e1 : processActivities ["TIME:9am".toList] =
      [deriveFields "TIME:9am".toList] := by decide
  have e2 : recordBuffers ["TIME:9am".toList] = ["TIME:9am".toList] := by decide
  rw [e1, e2] at h
  cases h with
  | cons h _ =>
    have := h Field.time [] "9am".toList ⟨rfl, fun _ _ _ => Nat.zero_le _⟩
    revert this
    decide

/-- C4, amended: for lines without line terminators, a field whose tag
followed by a space occurs in the record's buffer holds the trimmed text
between the first such occurrence and the next line feed or the end of the
buffer. -/
theorem field_follows_first_spaced_tag (lines : List Str)
    (hlt : ∀ l ∈ lines, ∀ c ∈ l, isLineTerminator c = false) :
    List.Forall₂
      (fun rec buf => ∀ f : Field,
        (includes buf f.pattern = true → ∃ pre rest, IsFirstOccurrence f.pattern pre rest buf) ∧
        (∀ pre rest, IsFirstOccurrence f.pattern pre rest buf →
          f.get rec = trim (rest.takeWhile (fun c => c != '\n'))))
      (processActivities lines) (recordBuffers lines) := by
  apply forall₂_records_buffers
  intro g hg f
  refine ⟨fun h => ?_, fun pre rest h => ?_⟩
  · obtain ⟨pre, rest, hs⟩ := splitFirst_of_includes _ _ h
    exact ⟨pre, rest, splitFirst_isFirst _ _ _ _ hs⟩
  · exact get_of_first_occurrence f _ pre rest (buffer_terminators lines hlt g hg) h

/-- C4, amended, at the lines `TIME:x TIME: 9am`, `TITLE: A`. -/
theorem field_follows_first_spaced_tag_witness :
    List.Forall₂
      (fun rec buf => ∀ f : Field,
        (includes buf f.pattern = true → ∃ pre rest, IsFirstOccurrence f.pattern pre rest buf) ∧
        (∀ pre rest, IsFirstOccurrence f.pattern pre rest buf →
          f.get rec = trim (rest.takeWhile (fun c => c != '\n'))))
      (processActivities ["TIME:x TIME: 9am ".toList, "TITLE: A".toList])
      (recordBuffers ["TIME:x TIME: 9am ".toList, "TITLE: A".toList]) :=
  field_follows_first_spaced_tag ["TIME:x TIME: 9am ".toList, "TITLE: A".toList] (by decide)

/-- C5 as stated fails: after `TIME: 9am`, the lines `TITLE: A` and
`TITLE: B` give the title `A`, the value of the first `TITLE: ` line, not
`B`, the value of the last. -/
theorem last_tag_wins_counterexample :
    processActivities ["TIME: 9am".toList, "TITLE: A".toList, "TITLE: B".toList] =
        [{ time := "9am".toList, title := "A".toList,
           description := "No description available".toList,
           location := "Location TBD".toList, price := "Price on request".toList }] ∧
      ¬ (∀ t v w : Str, (∀ c ∈ t ++ v ++ w, isLineTerminator c = false) →
          (processActivities
            ["TIME: ".toList ++ t, "TITLE: ".toList ++ v, "TITLE: ".toList ++ w]).map
              (fun a => a.title) = [trim w]) := by
  refine ⟨by decide, ?_⟩
  intro h
  have := h "9am".toList "A".toList "B".toList (by decide)
  revert this
  decide

/-- C5, amended: first tag wins.  For lines without line terminators, when
a line of a record is the first of the record to hold a field's pattern
(the tag and a space), the field is the trimmed text that follows the first
occurrence of the pattern in that line, whatever later lines of the record
hold. -/
theorem first_tag_wins (lines : List Str)
    (hlt : ∀ l ∈ lines, ∀ c ∈ l, isLineTerminator c = false) :
    List.Forall₂
      (fun rec g => ∀ (f : Field) (before : List Str) (l : Str) (after : List Str)
          (a b : Str),
        g = before ++ l :: after →
        (∀ x ∈ before, includes x f.pattern = false) →
        IsFirstOccurrence f.pattern a b l →
        f.get rec = trim b)
      (processActivities lines) (lineGroups lines) := by
  apply forall₂_records_groups
  intro g hg f before l after a b hgsplit hbefore hfirst
  have hsplit := splitFirst_joinLines f.pattern f.newline_not_mem_pattern before l after a b
    hbefore (isFirst_splitFirst _ _ _ _ hfirst)
  rw [← hgsplit] at hsplit
  have hbuf := buffer_terminators lines hlt g hg
  rw [get_of_first_occurrence f _ _ _ hbuf (splitFirst_isFirst _ _ _ _ hsplit)]
  have hlmem : l ∈ lines :=
    mem_lines_of_mem_lineGroups lines g hg l (by rw [hgsplit]; simp)
  have hb : '\n' ∉ b := by
    intro hmem
    have hin : '\n' ∈ l := by rw [hfirst.1]; simp [hmem]
    have := hlt l hlmem '\n' hin
    revert this
    decide
  rw [takeWhile_append_newline b _ hb (flatten_map_newline_shape after)]

/-- C5, amended, at the lines `TIME: 9am`, `TITLE: A`, `TITLE: B`. -/
theorem first_tag_wins_witness :
    List.Forall₂
      (fun rec g => ∀ (f : Field) (before : List Str) (l : Str) (after : List Str)
          (a b : Str),
        g = before ++ l :: after →
        (∀ x ∈ before, includes x f.pattern = false) →
        IsFirstOccurrence f.pattern a b l →
        f.get rec = trim b)
      (processActivities ["TIME: 9am".toList, "TITLE: A".toList, "TITLE: B".toList])
      (lineGroups ["TIME: 9am".toList, "TITLE: A".toList, "TITLE: B".toList]) :=
  first_tag_wins ["TIME: 9am".toList, "TITLE: A".toList, "TITLE: B".toList] (by decide)

/-! ## The recommendation list -/

theorem replaceLeadingDash_eq (s : Str) :
    replaceLeadingDash s = if "- ".toList <+: s then s.drop 2 else s := by
  unfold replaceLeadingDash
  rw [List.range_succ_eq_map]
  by_cases h : "- ".toList <+: s
  · have h' : "- ".toList.isPrefixOf s = true := List.isPrefixOf_iff_prefix.2 h
    have hm : matchLeadingDashAt s 0 = some 2 := by
      unfold matchLeadingDashAt
      rw [List.drop_zero, h']
      rfl
    simp only [List.find?_cons, hm, Option.isSome_some, Option.getD_some]
    rw [if_pos h]
    rfl
  · have hnone : ∀ i, (matchLeadingDashAt s i).isSome = false := by
      intro i
      cases i with
      | zero =>
        have h' : "- ".toList.isPrefixOf s = false := by
          cases hp : "- ".toList.isPrefixOf s with
          | false => rfl
          | true => exact absurd (List.isPrefixOf_iff_prefix.1 hp) h
        unfold matchLeadingDashAt
        rw [List.drop_zero, h']
        rfl
      | succ n => simp [matchLeadingDashAt]
    have hfind : (0 :: List.map Nat.succ (List.range s.length)).find?
        (fun i => (matchLeadingDashAt s i).isSome) = none := by
      rw [List.find?_eq_none]
      intro i _
      rw [hnone i]
      exact Bool.false_ne_true
    rw [hfind, if_neg h]

/-- C6: the tip text rendered by `generateRecommendationsHTML` is the tip
without one leading `- ` when it starts with `- `, and the tip itself
otherwise; the entries follow the input order, one per recommendation. -/
theorem recommendations_strip_one_dash (recommendations : List Str) :
    generateRecommendationsHTML recommendations =
        tipsHeaderHTML ++
          (recommendations.map (fun tip =>
            tipOpenHTML ++ (if "- ".toList <+: tip then tip.drop 2 else tip) ++
              tipCloseHTML)).flatten ++
          tipsFooterHTML ∧
      (∀ s : Str, replaceLeadingDash ("- ".toList ++ s) = s) ∧
      (∀ s : Str, ¬ "- ".toList <+: s → replaceLeadingDash s = s) ∧
      replaceLeadingDash "- Bring sunscreen".toList = "Bring sunscreen".toList ∧
      replaceLeadingDash "Bring water".toList = "Bring water".toList ∧
      replaceLeadingDash "- - Bring a hat".toList = "- Bring a hat".toList := by
  refine ⟨?_, ?_, ?_, by decide, by decide, by decide⟩
  · unfold generateRecommendationsHTML
    simp only [replaceLeadingDash_eq]
  · intro s
    rw [replaceLeadingDash_eq, if_pos (List.prefix_append _ _)]
    rfl
  · intro s h
    rw [replaceLeadingDash_eq, if_neg h]

/-! ## The submit handler -/

/-- The page when the handler reaches the `try`. -/
theorem submitPrologue_of_message (w : Widget) (h : trim w.inputValue ≠ []) :
    submitPrologue w =
      some ({ w with
          chatContainer := w.chatContainer ++
            [{ id := w.nextId, el := messageElement (trim w.inputValue) true },
             { id := w.nextId + 1, el := typingElement }]
          nextId := w.nextId + 2
          inputValue := []
          inputDisabled := true },
        trim w.inputValue, w.nextId + 1) := by
  have he : (trim w.inputValue).isEmpty = false := by
    cases hx : trim w.inputValue with
    | nil => exact absurd hx h
    | cons c r => rfl
  simp only [submitPrologue, addMessage, appendChild, he, Bool.false_eq_true, if_false,
    List.append_assoc, List.cons_append, List.nil_append]

theorem submitPrologue_of_blank (w : Widget) (h : trim w.inputValue = []) :
    submitPrologue w = none := by
  simp only [submitPrologue, h, List.isEmpty_nil, if_true]

/-- Removing the placeholder leaves the earlier transcript and the user
message. -/
theorem filter_placeholder (nodes : List Node) (next : Nat) (m : Element)
    (hwf : ∀ n ∈ nodes, n.id < next) :
    (nodes ++ [({ id := next, el := m } : Node),
        ({ id := next + 1, el := typingElement } : Node)]).filter
        (fun n => n.id != next + 1) =
      nodes ++ [{ id := next, el := m }] := by
  have h1 : nodes.filter (fun n => n.id != next + 1) = nodes := by
    rw [List.filter_eq_self]
    intro n hn
    have := hwf n hn
    simp only [bne_iff_ne, ne_eq]
    omega
  have hne : (next != next + 1) = true := by simp
  rw [List.filter_append, h1]
  simp [List.filter, hne]

theorem filter_after_removal (nodes : List Node) (next : Nat) (m : Element)
    (hwf : ∀ n ∈ nodes, n.id < next) :
    (nodes ++ [({ id := next, el := m } : Node)]).filter (fun n => n.id != next + 1) =
      nodes ++ [{ id := next, el := m }] := by
  rw [List.filter_eq_self]
  intro n hn
  simp only [List.mem_append, List.mem_singleton] at hn
  simp only [bne_iff_ne, ne_eq]
  rcases hn with hn | rfl
  · have := hwf n hn; omega
  · simp

/-! ### Well-formed pages

Every element gets its identity from `nextId`, so a page reached from an
empty transcript is well formed, and the handler keeps it so. -/

theorem appendChild_wellFormed (w : Widget) (el : Element) (h : w.WellFormed) :
    (appendChild w el).WellFormed := by
  intro n hn
  simp only [appendChild, List.mem_append, List.mem_singleton] at hn ⊢
  rcases hn with hn | rfl
  · exact Nat.lt_succ_of_lt (h n hn)
  · exact Nat.lt_succ_self _

theorem removeNode_wellFormed (w : Widget) (id : Nat) (h : w.WellFormed) :
    (removeNode w id).WellFormed := by
  intro n hn
  simp only [removeNode] at hn ⊢
  exact h n (List.mem_of_mem_filter hn)

theorem addMessage_wellFormed (w : Widget) (content : Option Str) (isUser : Bool)
    (h : w.WellFormed) : (addMessage w content isUser).WellFormed := by
  cases content with
  | none => exact h
  | some text =>
    by_cases ht : text.isEmpty = true
    · simpa [addMessage, ht] using h
    · simp only [addMessage, ht, Bool.false_eq_true, if_false]
      exact appendChild_wellFormed w _ h

theorem displayItinerary_wellFormed (w : Widget) (data : ItineraryResponse)
    (h : w.WellFormed) : (displayItinerary w data).WellFormed := by
  unfold displayItinerary
  cases w.itineraryContainer <;> exact h

theorem tryBlock_wellFormed (w : Widget) (message : Str) (typingId : Nat) (o : Outcome)
    (h : w.WellFormed) : (tryBlock w message typingId o).1.WellFormed := by
  have h1 : Widget.WellFormed
      { w with effects := w.effects ++ [Effect.delay 1000, Effect.fetch message] } := h
  unfold tryBlock
  cases o with
  | rejected d => exact h1
  | response status body =>
    by_cases hs : responseOk status = true
    · simp only [hs, Bool.not_true, Bool.false_eq_true, if_false]
      cases body with
      | malformed d => exact h1
      | json data =>
        have h2 := removeNode_wellFormed _ typingId h1
        dsimp only
        cases hd : data.itinerary with
        | nil => exact h2
        | cons first rest =>
          by_cases hday : first.day = 0
          · simp only [hday, if_true]
            exact addMessage_wellFormed _ _ _ h2
          · simp only [hday, if_false]
            exact displayItinerary_wellFormed _ data
              (addMessage_wellFormed _ (some confirmationText) false h2)
    · simp only [Bool.not_eq_true] at hs
      simp only [hs, Bool.not_false, if_true]
      exact h1

/-- The handler keeps the page well formed. -/
theorem submit_wellFormed (w : Widget) (o : Outcome) (h : w.WellFormed) :
    (submit w o).WellFormed := by
  unfold submit
  cases hp : submitPrologue w with
  | none => exact h
  | some r =>
    obtain ⟨w1, message, typingId⟩ := r
    have hw1 : w1.WellFormed := by
      unfold submitPrologue at hp
      by_cases he : (trim w.inputValue).isEmpty = true
      · simp [he] at hp
      · simp only [he, Bool.false_eq_true, if_false, Option.some.injEq, Prod.mk.injEq] at hp
        rw [← hp.1]
        exact appendChild_wellFormed _ _ (addMessage_wellFormed w _ true h)
    have ht := tryBlock_wellFormed w1 message typingId o hw1
    simp only [submitExchange]
    by_cases hthrow : (tryBlock w1 message typingId o).2 = true
    · simp only [hthrow, if_true]
      exact addMessage_wellFormed _ _ _ (removeNode_wellFormed _ typingId ht)
    · simp only [hthrow, Bool.false_eq_true, if_false]
      exact ht

/-- C7 as stated fails: a successful response whose second day plan has
day 1, after a first with day 0, leaves the itinerary panel hidden. -/
theorem later_day_counterexample :
    (∃ d ∈ mixedResponse.itinerary, d.day ≠ 0) ∧
      trim hiddenPanelWidget.inputValue ≠ [] ∧
      responseOk 200 = true ∧
      hiddenPanelWidget.itinerarySectionHidden = some true ∧
      (submit hiddenPanelWidget (.response 200 (.json mixedResponse))).itinerarySectionHidden =
        some true := by
  refine ⟨⟨{ day := 1, activities := ["TIME: 9am".toList, "TITLE: Beach".toList] },
    by decide, by decide⟩, by decide, by decide,
    by decide, by rfl⟩

/-- C7, amended: for a successful response the first day plan decides.  When
its day is 0 the state of the itinerary panel is left as it was; when its
day is not 0 the panel, if the page has one, is revealed. -/
theorem first_day_decides_reveal (w : Widget) (status : Nat) (data : ItineraryResponse)
    (first : DayPlan) (rest : List DayPlan)
    (hmsg : trim w.inputValue ≠ []) (hok : responseOk status = true)
    (hit : data.itinerary = first :: rest) :
    (first.day = 0 →
        (submit w (.response status (.json data))).itinerarySectionHidden =
          w.itinerarySectionHidden) ∧
      (first.day ≠ 0 →
        (submit w (.response status (.json data))).itinerarySectionHidden =
          w.itinerarySectionHidden.map (fun _ => false)) := by
  constructor
  · intro hday
    simp only [submit, submitPrologue_of_message w hmsg, submitExchange, tryBlock, hok, hit,
      hday, finallyBlock, removeNode, addMessage, appendChild]
    cases first.activities.head? with
    | none => simp
    | some t => by_cases ht : t.isEmpty = true <;> simp [ht]
  · intro hday
    simp only [submit, submitPrologue_of_message w hmsg, submitExchange, tryBlock, hok, hit,
      hday, finallyBlock, removeNode, addMessage, appendChild, displayItinerary]
    cases w.itineraryContainer <;> simp [confirmationText]

/-- C7, amended, at a page with a hidden panel and a response of one day. -/
theorem first_day_decides_reveal_witness :
    (submit hiddenPanelWidget
        (.response 200 (.json
          { itinerary := [{ day := 1, activities := ["TIME: 9am".toList] }],
            hotel_suggestion := none, recommendations := none }))).itinerarySectionHidden =
      (some true).map (fun _ => false) :=
  (first_day_decides_reveal hiddenPanelWidget 200
    { itinerary := [{ day := 1, activities := ["TIME: 9am".toList] }],
      hotel_suggestion := none, recommendations := none }
    { day := 1, activities := ["TIME: 9am".toList] } [] (by decide) (by decide) rfl).2 (by decide)

/-- The page after a successful day-0 reply. -/
theorem submit_day_zero (w : Widget) (status : Nat) (data : ItineraryResponse)
    (first : DayPlan) (rest : List DayPlan)
    (hwf : w.WellFormed) (hmsg : trim w.inputValue ≠ []) (hok : responseOk status = true)
    (hit : data.itinerary = first :: rest) (hday : first.day = 0) :
    (submit w (.response status (.json data))).transcript =
        w.transcript ++ [messageElement (trim w.inputValue) true] ++ replyMessages first ∧
      (submit w (.response status (.json data))).effects =
        w.effects ++ [Effect.delay 1000, Effect.fetch (trim w.inputValue)] ∧
      (submit w (.response status (.json data))).itineraryContainer = w.itineraryContainer ∧
      (submit w (.response status (.json data))).itinerarySectionHidden =
        w.itinerarySectionHidden := by
  have hsub : submit w (.response status (.json data)) =
      finallyBlock (addMessage
        { w with
          chatContainer := w.chatContainer ++
            [{ id := w.nextId, el := messageElement (trim w.inputValue) true }]
          nextId := w.nextId + 2
          inputValue := []
          inputDisabled := true
          effects := w.effects ++ [Effect.delay 1000, Effect.fetch (trim w.inputValue)] }
        first.activities.head? false) := by
    simp only [submit, submitPrologue_of_message w hmsg, submitExchange, tryBlock, hok, hit,
      hday, removeNode, filter_placeholder w.chatContainer w.nextId _ hwf]
    simp
  rw [hsub]
  cases hh : first.activities.head? with
  | none => simp [finallyBlock, addMessage, Widget.transcript, replyMessages, hh]
  | some t =>
    by_cases ht : t = []
    · simp [finallyBlock, addMessage, Widget.transcript, replyMessages, hh, ht]
    · have ht' : t.isEmpty = false := by
        cases t with
        | nil => exact absurd rfl ht
        | cons c r => rfl
      simp [finallyBlock, addMessage, appendChild, Widget.transcript, replyMessages, hh, ht,
        ht']

/-- C8 as stated fails: for a day-0 reply whose first activity is missing,
or is the empty string, the transcript ends with the user message; no
assistant message is appended. -/
theorem empty_reply_counterexample :
    responseOk 200 = true ∧ hiddenPanelWidget.transcript = [] ∧
      (submit hiddenPanelWidget (.response 200 (.json textlessReply))).transcript =
        [messageElement "hi".toList true] ∧
      (submit hiddenPanelWidget (.response 200 (.json emptyTextReply))).transcript =
        [messageElement "hi".toList true] ∧
      ¬ (∃ t, (submit hiddenPanelWidget (.response 200 (.json emptyTextReply))).transcript =
        hiddenPanelWidget.transcript ++
          [messageElement "hi".toList true, messageElement t false]) := by
  refine ⟨by decide, by rfl, by rfl, by rfl, ?_⟩
  rintro ⟨t, ht⟩
  have e : (submit hiddenPanelWidget (.response 200 (.json emptyTextReply))).transcript =
      [messageElement "hi".toList true] := by rfl
  rw [e] at ht
  have := congrArg List.length ht
  simp [hiddenPanelWidget, Widget.transcript] at this

/-- C8, amended: for a successful response whose first day plan has day 0,
the handler removes the typing placeholder and appends one assistant message
carrying `activities[0]` when that text is a non-empty string, and none when
it is empty or missing; the itinerary renderer is not called and the
itinerary view is left as it was. -/
theorem day_zero_reply (w : Widget) (status : Nat) (data : ItineraryResponse)
    (first : DayPlan) (rest : List DayPlan)
    (hwf : w.WellFormed) (hmsg : trim w.inputValue ≠ []) (hok : responseOk status = true)
    (hit : data.itinerary = first :: rest) (hday : first.day = 0) :
    (submit w (.response status (.json data))).transcript =
        w.transcript ++ [messageElement (trim w.inputValue) true] ++ replyMessages first ∧
      (submit w (.response status (.json data))).effects =
        w.effects ++ [Effect.delay 1000, Effect.fetch (trim w.inputValue)] ∧
      (submit w (.response status (.json data))).itineraryContainer = w.itineraryContainer ∧
      (submit w (.response status (.json data))).itinerarySectionHidden =
        w.itinerarySectionHidden :=
  submit_day_zero w status data first rest hwf hmsg hok hit hday

/-- C8, amended, at a page with an empty transcript and the reply `hello`. -/
theorem day_zero_reply_witness :
    (submit hiddenPanelWidget (.response 200 (.json mixedResponse))).transcript =
        hiddenPanelWidget.transcript ++ [messageElement (trim hiddenPanelWidget.inputValue) true] ++
          replyMessages { day := 0, activities := ["hello".toList] } ∧
      replyMessages { day := 0, activities := ["hello".toList] } =
        [messageElement "hello".toList false] :=
  ⟨(day_zero_reply hiddenPanelWidget 200 mixedResponse
      { day := 0, activities := ["hello".toList] }
      [{ day := 1, activities := ["TIME: 9am".toList, "TITLE: Beach".toList] }]
      (by unfold Widget.WellFormed; decide) (by decide) (by decide) rfl rfl).1, by rfl⟩

theorem submit_of_throw (w : Widget) (o : Outcome) (hwf : w.WellFormed)
    (hmsg : trim w.inputValue ≠ []) (hfail : o.IsFailure) :
    submit w o =
      { w with
        chatContainer := w.chatContainer ++
          [{ id := w.nextId, el := messageElement (trim w.inputValue) true },
           { id := w.nextId + 2, el := messageElement errorText false }]
        nextId := w.nextId + 3
        inputValue := []
        inputDisabled := false
        inputFocused := true
        effects := w.effects ++ [Effect.delay 1000, Effect.fetch (trim w.inputValue)] } := by
  have herr : errorText.isEmpty = false := by decide
  have hf1 := filter_placeholder w.chatContainer w.nextId
    (messageElement (trim w.inputValue) true) hwf
  have hf2 := filter_after_removal w.chatContainer w.nextId
    (messageElement (trim w.inputValue) true) hwf
  rcases hfail with ⟨d, rfl⟩ | ⟨s, b, rfl, hs⟩ | ⟨s, d, rfl⟩ | ⟨s, data, rfl, hd⟩
  · simp only [submit, submitPrologue_of_message w hmsg, submitExchange, tryBlock, if_true,
      catchBlock, removeNode, hf1, addMessage, herr, Bool.false_eq_true, if_false,
      appendChild, finallyBlock]
    simp
  · simp only [submit, submitPrologue_of_message w hmsg, submitExchange, tryBlock, hs,
      Bool.not_false, if_true, catchBlock, removeNode, hf1, addMessage, herr,
      Bool.false_eq_true, if_false, appendChild, finallyBlock]
    simp
  · by_cases hs : responseOk s = true
    · simp only [submit, submitPrologue_of_message w hmsg, submitExchange, tryBlock, hs,
        Bool.not_true, Bool.false_eq_true, if_false, if_true, catchBlock, removeNode, hf1,
        addMessage, herr, appendChild, finallyBlock]
      simp
    · simp only [Bool.not_eq_true] at hs
      simp only [submit, submitPrologue_of_message w hmsg, submitExchange, tryBlock, hs,
        Bool.not_false, if_true, catchBlock, removeNode, hf1, addMessage, herr,
        Bool.false_eq_true, if_false, appendChild, finallyBlock]
      simp
  · by_cases hs : responseOk s = true
    · simp only [submit, submitPrologue_of_message w hmsg, submitExchange, tryBlock, hs,
        Bool.not_true, Bool.false_eq_true, if_false, if_true, hd, catchBlock, removeNode,
        hf1, hf2, addMessage, herr, appendChild, finallyBlock]
      simp
    · simp only [Bool.not_eq_true] at hs
      simp only [submit, submitPrologue_of_message w hmsg, submitExchange, tryBlock, hs,
        Bool.not_false, if_true, catchBlock, removeNode, hf1, addMessage, herr,
        Bool.false_eq_true, if_false, appendChild, finallyBlock]
      simp

/-- The page after a successful response whose first day is not 0. -/
theorem submit_itinerary (w : Widget) (status : Nat) (data : ItineraryResponse)
    (first : DayPlan) (rest : List DayPlan)
    (hwf : w.WellFormed) (hmsg : trim w.inputValue ≠ []) (hok : responseOk status = true)
    (hit : data.itinerary = first :: rest) (hday : first.day ≠ 0) :
    (submit w (.response status (.json data))).transcript =
        w.transcript ++ [messageElement (trim w.inputValue) true,
          messageElement confirmationText false] ∧
      (submit w (.response status (.json data))).effects =
        w.effects ++ [Effect.delay 1000, Effect.fetch (trim w.inputValue),
          Effect.displayItinerary data] := by
  have hc : confirmationText.isEmpty = false := by decide
  simp only [submit, submitPrologue_of_message w hmsg, submitExchange, tryBlock, hok, hit,
    hday, removeNode, filter_placeholder w.chatContainer w.nextId _ hwf, addMessage, hc,
    appendChild, displayItinerary, finallyBlock, Widget.transcript]
  cases w.itineraryContainer <;> simp

/-- Every outcome is a failure or a successful response with a first day. -/
theorem outcome_cases (o : Outcome) :
    o.IsFailure ∨ ∃ status data first rest, o = .response status (.json data) ∧
      responseOk status = true ∧ data.itinerary = first :: rest := by
  cases o with
  | rejected d => exact Or.inl (Or.inl ⟨d, rfl⟩)
  | response status body =>
    cases hs : responseOk status with
    | false => exact Or.inl (Or.inr (Or.inl ⟨status, body, rfl, hs⟩))
    | true =>
      cases body with
      | malformed d => exact Or.inl (Or.inr (Or.inr (Or.inl ⟨status, d, rfl⟩)))
      | json data =>
        cases hd : data.itinerary with
        | nil => exact Or.inl (Or.inr (Or.inr (Or.inr ⟨status, data, rfl, hd⟩)))
        | cons first rest => exact Or.inr ⟨status, data, first, rest, rfl, hs, hd⟩

/-- C9: for a non-empty trimmed input and every failure of the exchange,
the transcript after the handler is the transcript before it, the user
message and the fixed error message, whatever the details of the failure;
the typing placeholder is gone and the input is enabled again. -/
theorem failure_appends_fixed_message (w : Widget) (o : Outcome) (hwf : w.WellFormed)
    (hmsg : trim w.inputValue ≠ []) (hfail : o.IsFailure) :
    (submit w o).transcript =
        w.transcript ++ [messageElement (trim w.inputValue) true,
          messageElement "Sorry, I encountered an error. Please try again.".toList false] ∧
      (submit w o).inputDisabled = false ∧
      (submit w o).inputFocused = true ∧
      (∃ w1, submitPrologue w = some (w1, trim w.inputValue, w.nextId + 1) ∧
        ({ id := w.nextId + 1, el := typingElement } : Node) ∈ w1.chatContainer) ∧
      (∀ n ∈ (submit w o).chatContainer, n.id ≠ w.nextId + 1) := by
  rw [submit_of_throw w o hwf hmsg hfail]
  refine ⟨?_, rfl, rfl, ⟨_, submitPrologue_of_message w hmsg, by simp⟩, ?_⟩
  · simp only [Widget.transcript, List.map_append, List.map_cons, List.map_nil, errorText]
  · intro n hn
    simp only [List.mem_append, List.mem_cons, List.mem_singleton, List.mem_nil_iff,
      or_false] at hn
    rcases hn with hn | rfl | rfl
    · have := hwf n hn; omega
    · simp
    · simp

/-- C9, at a page with an empty transcript, for a response of status 500. -/
theorem failure_appends_fixed_message_witness :
    (submit hiddenPanelWidget (.response 500 (.malformed "Internal".toList))).transcript =
        hiddenPanelWidget.transcript ++ [messageElement (trim hiddenPanelWidget.inputValue) true,
          messageElement "Sorry, I encountered an error. Please try again.".toList false] ∧
      (submit hiddenPanelWidget (.response 500 (.malformed "Internal".toList))).inputDisabled =
        false :=
  have h := failure_appends_fixed_message hiddenPanelWidget
    (.response 500 (.malformed "Internal".toList))
    (by unfold Widget.WellFormed; decide) (by decide)
    (Or.inr (Or.inl ⟨500, .malformed "Internal".toList, rfl, by decide⟩))
  ⟨h.1, h.2.1⟩

/-- C10: for an input whose trimmed text is empty the handler changes
nothing and issues no request; for any other input the user message with
the trimmed text is in the transcript, after it only the placeholder, when
no request has been issued yet; the handler then issues one request, and
everything else it appends is an assistant message. -/
theorem blank_is_noop_else_one_user_message (w : Widget) (o : Outcome) :
    (trim w.inputValue = [] → submitPrologue w = none ∧ submit w o = w) ∧
      (trim w.inputValue ≠ [] → w.WellFormed →
        ∃ w1 typingId, submitPrologue w = some (w1, trim w.inputValue, typingId) ∧
          w1.transcript =
            w.transcript ++ [messageElement (trim w.inputValue) true, typingElement] ∧
          w1.effects = w.effects ∧
          (∃ later, (submit w o).effects =
              w.effects ++ Effect.delay 1000 :: Effect.fetch (trim w.inputValue) :: later ∧
            ∀ e ∈ later, ∀ p, e ≠ Effect.fetch p) ∧
          ∃ replies, (submit w o).transcript =
              w.transcript ++ messageElement (trim w.inputValue) true :: replies ∧
            ∀ r ∈ replies, ∃ t, r = messageElement t false) := by
  constructor
  · intro h
    have hp := submitPrologue_of_blank w h
    exact ⟨hp, by simp only [submit, hp]⟩
  · intro hmsg hwf
    refine ⟨_, _, submitPrologue_of_message w hmsg, ?_, rfl, ?_⟩
    · simp [Widget.transcript]
    · rcases outcome_cases o with hfail | ⟨status, data, first, rest, rfl, hok, hit⟩
      · rw [submit_of_throw w o hwf hmsg hfail]
        exact ⟨⟨[], rfl, by simp⟩, [messageElement errorText false],
          by simp [Widget.transcript],
          fun r hr => ⟨errorText, by simpa using hr⟩⟩
      · by_cases hday : first.day = 0
        · obtain ⟨ht, he, -, -⟩ := submit_day_zero w status data first rest hwf hmsg hok hit hday
          refine ⟨⟨[], he, by simp⟩, replyMessages first, by simp [ht], ?_⟩
          intro r hr
          unfold replyMessages at hr
          cases hh : first.activities.head? with
          | none => simp [hh] at hr
          | some t =>
            by_cases htn : t = []
            · simp [hh, htn] at hr
            · simp only [hh, htn, if_false, List.mem_singleton] at hr
              exact ⟨t, hr⟩
        · obtain ⟨ht, he⟩ := submit_itinerary w status data first rest hwf hmsg hok hit hday
          exact ⟨⟨[Effect.displayItinerary data], he, by simp⟩,
            [messageElement confirmationText false], by simp [ht],
            fun r hr => ⟨confirmationText, by simpa using hr⟩⟩

/-- C10, at a page whose input holds blanks only, and at one whose input
holds ` hi `. -/
theorem blank_is_noop_else_one_user_message_witness :
    submit { hiddenPanelWidget with inputValue := " \t\n ".toList }
        (.response 200 (.json mixedResponse)) =
        { hiddenPanelWidget with inputValue := " \t\n ".toList } ∧
      ∃ w1 typingId, submitPrologue hiddenPanelWidget = some (w1, "hi".toList, typingId) ∧
        w1.transcript = [messageElement "hi".toList true, typingElement] ∧ w1.effects = [] :=
  ⟨((blank_is_noop_else_one_user_message { hiddenPanelWidget with inputValue := " \t\n ".toList }
      (.response 200 (.json mixedResponse))).1 (by decide)).2,
    by
      obtain ⟨w1, tid, h1, h2, h3, -⟩ :=
        (blank_is_noop_else_one_user_message hiddenPanelWidget (.rejected [])).2 (by decide)
          (by unfold Widget.WellFormed; decide)
      exact ⟨w1, tid, h1, h2, h3⟩⟩

/-! ## Concatenation at record boundaries -/

theorem groupsAux_cons_pos (l : Str) (rest : List Str) (h : opensRecord l = true) :
    groupsAux (l :: rest) = ([], (l :: (groupsAux rest).1) :: (groupsAux rest).2) := by
  simp only [groupsAux, h, if_true]

theorem groupsAux_cons_neg (l : Str) (rest : List Str) (h : ¬ opensRecord l = true) :
    groupsAux (l :: rest) = (l :: (groupsAux rest).1, (groupsAux rest).2) := by
  simp only [groupsAux, h, Bool.false_eq_true, if_false]

theorem groupsAux_append_of_closed (xs ys : List Str) (hys : (groupsAux ys).1 = []) :
    groupsAux (xs ++ ys) = ((groupsAux xs).1, (groupsAux xs).2 ++ (groupsAux ys).2) := by
  induction xs with
  | nil =>
    show groupsAux ys = ([], (groupsAux ys).2)
    rw [← hys]
  | cons l rest ih =>
    by_cases h : opensRecord l = true
    · rw [List.cons_append, groupsAux_cons_pos l _ h, groupsAux_cons_pos l _ h, ih]
      rfl
    · rw [List.cons_append, groupsAux_cons_neg l _ h, groupsAux_cons_neg l _ h, ih]

theorem groupsAux_waiting_nil (ys : List Str)
    (hys : ys = [] ∨ ∃ l rest, ys = l :: rest ∧ opensRecord l = true) :
    (groupsAux ys).1 = [] := by
  rcases hys with rfl | ⟨l, rest, rfl, hl⟩
  · rfl
  · rw [groupsAux_cons_pos l rest hl]

theorem lineGroups_append_of_no_opening (pre ys : List Str)
    (hpre : ∀ l ∈ pre, opensRecord l = false) :
    lineGroups (pre ++ ys) = lineGroups ys := by
  induction pre with
  | nil => rfl
  | cons l rest ih =>
    have hl : ¬ opensRecord l = true := by
      rw [hpre l (List.mem_cons_self _ _)]; exact Bool.false_ne_true
    have ih' := ih (fun x hx => hpre x (List.mem_cons_of_mem _ hx))
    simp only [lineGroups] at ih' ⊢
    rw [List.cons_append, groupsAux_cons_neg l _ hl]
    exact ih'

/-- C11: `processActivities` distributes over concatenation at a record
boundary: when `ys` is empty or opens with a line containing `TIME:`, the
records of `xs ++ ys` are those of `xs` followed by those of `ys`; and lines
without `TIME:` put in front of any `ys` do not change its records. -/
theorem processActivities_append (xs ys pre : List Str) :
    ((ys = [] ∨ ∃ l rest, ys = l :: rest ∧ includes l "TIME:".toList = true) →
        processActivities (xs ++ ys) = processActivities xs ++ processActivities ys) ∧
      ((∀ l ∈ pre, includes l "TIME:".toList = false) →
        processActivities (pre ++ ys) = processActivities ys) := by
  constructor
  · intro hys
    have hnil := groupsAux_waiting_nil ys hys
    simp only [processActivities_eq_map_lineGroups, lineGroups,
      groupsAux_append_of_closed xs ys hnil, List.map_append]
  · intro hpre
    simp only [processActivities_eq_map_lineGroups,
      lineGroups_append_of_no_opening pre ys hpre]

/-- C11, at two days' worth of lines joined at a `TIME:` line, and at a
preamble of two lines without `TIME:`. -/
theorem processActivities_append_witness :
    processActivities (["intro".toList, "TIME: 9am".toList, "TITLE: A".toList] ++
        ["TIME: 11am".toList, "TITLE: B".toList]) =
        processActivities ["intro".toList, "TIME: 9am".toList, "TITLE: A".toList] ++
          processActivities ["TIME: 11am".toList, "TITLE: B".toList] ∧
      processActivities (["Day one".toList, "PRICE: 5".toList] ++
        ["TITLE: x".toList, "TIME: 9am".toList]) =
        processActivities ["TITLE: x".toList, "TIME: 9am".toList] ∧
      (processActivities (["TIME: 9am".toList] ++ ["TITLE: A".toList])).length = 1 ∧
      (processActivities ["TIME: 9am".toList] ++ processActivities ["TITLE: A".toList]).map
        (fun a => a.title) = ["Activity".toList] :=
  ⟨(processActivities_append ["intro".toList, "TIME: 9am".toList, "TITLE: A".toList]
      ["TIME: 11am".toList, "TITLE: B".toList] []).1
      (Or.inr ⟨"TIME: 11am".toList, ["TITLE: B".toList], rfl, by decide⟩),
    (processActivities_append [] ["TITLE: x".toList, "TIME: 9am".toList]
      ["Day one".toList, "PRICE: 5".toList]).2 (by decide),
    by decide, by decide⟩

end AppJs
